import Mathlib

/-!
Verification development for the `react-service-logs` repository.

The state model and all operations are translated from
`src/serviceLogSlice.ts` (a Redux Toolkit slice) and the derived
`filteredLogs` projection of the `ServiceLogManager` component.

Modelling conventions:
* JavaScript numbers (`odometer`, `engineHours`) are modelled as `Int`;
  the code only ever compares them with `0`.
* JavaScript strings are Lean `String`s; the handful of JS string
  operations used by the code (`trim`, `toLowerCase`, `includes`,
  lexicographic `<=`) are modelled explicitly over the character list.
* `new Date(s)` followed by `setDate(getDate()+1)` /
  `toISOString().split('T')[0]` is modelled for ISO `YYYY-MM-DD`
  date-only strings (`parseYMD`, `nextDay`, `fmtYMD`); any other string
  is a parse failure.  A reducer that would throw in JS (calling
  `toISOString` on an Invalid Date) is modelled as returning `none`,
  i.e. no successful state transition.
* Nondeterministic inputs (fresh ids, clock readings) are explicit
  parameters of the operations.
-/

namespace ServiceLogs

/-! ### JS string primitives -/

/-- JS `String.prototype.trim`: strip leading/trailing whitespace. -/
def jsTrim (s : String) : String :=
  ⟨((s.data.dropWhile Char.isWhitespace).reverse.dropWhile Char.isWhitespace).reverse⟩

/-- JS `String.prototype.toLowerCase` (character map). -/
def lowerChars (s : String) : List Char :=
  s.data.map Char.toLower

/-- `needle` is a prefix of `hay`. -/
def charsPrefixOf : List Char → List Char → Bool
  | [], _ => true
  | _ :: _, [] => false
  | a :: as, b :: bs => a == b && charsPrefixOf as bs

/-- `needle` occurs contiguously inside `hay`. -/
def charsInfixOf (needle : List Char) : List Char → Bool
  | [] => charsPrefixOf needle []
  | b :: bs => charsPrefixOf needle (b :: bs) || charsInfixOf needle bs

/-- JS `a.includes(b)`: `b` is a contiguous substring of `a`. -/
def strIncludes (a b : String) : Bool :=
  charsInfixOf b.data a.data

/-! ### JS calendar-date primitives -/

/-- Split a character list on a separator character. -/
def splitOnChar (c : Char) : List Char → List (List Char)
  | [] => [[]]
  | a :: rest =>
    match splitOnChar c rest with
    | [] => if a == c then [[], []] else [[a]]
    | g :: gs => if a == c then [] :: g :: gs else (a :: g) :: gs

/-- Decimal value of a digit list (caller checks the digits). -/
def digitsToNat (l : List Char) : Nat :=
  l.foldl (fun n c => n * 10 + (c.toNat - '0'.toNat)) 0

/-- Leap-year rule of the proleptic Gregorian calendar used by JS `Date`. -/
def isLeap (y : Nat) : Bool :=
  y % 4 == 0 && (y % 100 != 0 || y % 400 == 0)

/-- Number of days of month `m` (1-12) in year `y`. -/
def daysInMonth (y m : Nat) : Nat :=
  if m == 2 then (if isLeap y then 29 else 28)
  else if m == 4 || m == 6 || m == 9 || m == 11 then 30
  else 31

/-- Parse a strict ISO `YYYY-MM-DD` date-only string, as JS
`new Date(s)` accepts for the values produced by `<input type="date">`.
Returns `none` (JS: Invalid Date) for anything else. -/
def parseYMD (s : String) : Option (Nat × Nat × Nat) :=
  match splitOnChar '-' s.data with
  | [ys, ms, ds] =>
    if ys.length == 4 && ms.length == 2 && ds.length == 2 &&
       ys.all Char.isDigit && ms.all Char.isDigit && ds.all Char.isDigit then
      let y := digitsToNat ys
      let m := digitsToNat ms
      let d := digitsToNat ds
      if 1 ≤ m && m ≤ 12 && 1 ≤ d && d ≤ daysInMonth y m then
        some (y, m, d)
      else none
    else none
  | _ => none

/-- The calendar day after `(y, m, d)`:
JS `date.setDate(date.getDate() + 1)` with month/year rollover. -/
def nextDay : Nat × Nat × Nat → Nat × Nat × Nat
  | (y, m, d) =>
    if d < daysInMonth y m then (y, m, d + 1)
    else if m < 12 then (y, m + 1, 1)
    else (y + 1, 1, 1)

/-- Zero-pad a numeral to two digits. -/
def pad2 (n : Nat) : String :=
  if n < 10 then "0" ++ toString n else toString n

/-- Zero-pad a numeral to four digits. -/
def pad4 (n : Nat) : String :=
  if n < 10 then "000" ++ toString n
  else if n < 100 then "00" ++ toString n
  else if n < 1000 then "0" ++ toString n
  else toString n

/-- Format a date as JS `toISOString().split('T')[0]` does. -/
def fmtYMD : Nat × Nat × Nat → String
  | (y, m, d) => pad4 y ++ "-" ++ pad2 m ++ "-" ++ pad2 d

/-- `new Date(v)`, advance one day, render; `none` models the JS
exception thrown on an Invalid Date. -/
def nextDayStr (v : String) : Option String :=
  (parseYMD v).map (fun ymd => fmtYMD (nextDay ymd))

/-- Chronological order of two valid calendar dates (equals the order of
the JS millisecond timestamps). -/
def ltYMD (a b : Nat × Nat × Nat) : Bool :=
  a.1 < b.1 || (a.1 == b.1 && (a.2.1 < b.2.1 || (a.2.1 == b.2.1 && a.2.2 < b.2.2)))

/-- JS `new Date(e) < new Date(s)`: `false` whenever either side is an
Invalid Date (`NaN` comparisons are false). -/
def jsDateLt (e s : String) : Bool :=
  match parseYMD e, parseYMD s with
  | some a, some b => ltYMD a b
  | _, _ => false

/-! ### Data model (`serviceLogSlice.ts` interfaces) -/

inductive ServiceType where
  | planned
  | unplanned
  | emergency
deriving DecidableEq

/-- String rendering of a `ServiceType` (its JS string-literal value). -/
def ServiceType.render : ServiceType → String
  | .planned => "planned"
  | .unplanned => "unplanned"
  | .emergency => "emergency"

structure ServiceLog where
  id : String
  providerId : String
  serviceOrder : String
  carId : String
  odometer : Int
  engineHours : Int
  startDate : String
  endDate : String
  type : ServiceType
  serviceDescription : String
  createdAt : String
  /-- Not declared by the TS interface: the promotion spread
  `{ ...currentDraft, id, createdAt } as ServiceLog` retains the
  draft's `lastSaved` on the runtime object (the cast is compile-time
  only), and it survives JSON persistence; `none` models a record
  object without the property. -/
  lastSaved : Option String
  /-- Same runtime leak as `lastSaved`, for the draft's `isDirty`. -/
  isDirty : Option Bool
deriving DecidableEq

structure Draft where
  id : String
  providerId : String
  serviceOrder : String
  carId : String
  odometer : Int
  engineHours : Int
  startDate : String
  endDate : String
  type : ServiceType
  serviceDescription : String
  lastSaved : String
  isDirty : Bool
deriving DecidableEq

structure Filters where
  startDateFrom : String
  startDateTo : String
  /-- `ServiceType | ''` — `none` models the empty string. -/
  type : Option ServiceType
deriving DecidableEq

inductive SaveStatus where
  | idle
  | saving
  | saved
deriving DecidableEq

structure RootStateServiceLog where
  serviceLogs : List ServiceLog
  drafts : List Draft
  currentDraft : Option Draft
  searchTerm : String
  filters : Filters
  editingLog : Option ServiceLog
  saveStatus : SaveStatus
  validationErrors : List String
  showFilters : Bool
deriving DecidableEq

def initialState : RootStateServiceLog :=
  { serviceLogs := []
    drafts := []
    currentDraft := none
    searchTerm := ""
    filters := { startDateFrom := "", startDateTo := "", type := none }
    editingLog := none
    saveStatus := .idle
    validationErrors := []
    showFilters := false }

/-! ### Validation engine (`validateServiceLog`) -/

/-- `Partial<ServiceLog> | Partial<Draft>`: every validated field may be
absent (`undefined`).  Fields the validator never reads are omitted. -/
structure Candidate where
  providerId : Option String
  serviceOrder : Option String
  carId : Option String
  odometer : Option Int
  engineHours : Option Int
  startDate : Option String
  endDate : Option String
  serviceDescription : Option String
deriving DecidableEq

/-- JS `!x?.trim()`: the field is `undefined` or trims to the empty
(falsy) string. -/
def isBlankOpt : Option String → Bool
  | none => true
  | some s => jsTrim s == ""

/-- JS `x === undefined || x < 0`. -/
def isNegOpt : Option Int → Bool
  | none => true
  | some n => n < 0

/-- JS `!x` on an optional string: `undefined` or the empty string. -/
def isMissingDate : Option String → Bool
  | none => true
  | some s => s == ""

/-- Both dates present (truthy) and `new Date(end) < new Date(start)`. -/
def datesOutOfOrder (c : Candidate) : Bool :=
  match c.startDate, c.endDate with
  | some sd, some ed => sd != "" && ed != "" && jsDateLt ed sd
  | _, _ => false

/-- `validateServiceLog` from `serviceLogSlice.ts`: the fixed sequence
of checks, each contributing its fixed message. -/
def validateServiceLog (c : Candidate) : List String :=
  (if isBlankOpt c.providerId then ["Provider ID is required"] else []) ++
  (if isBlankOpt c.serviceOrder then ["Service Order is required"] else []) ++
  (if isBlankOpt c.carId then ["Car ID is required"] else []) ++
  (if isNegOpt c.odometer then ["Valid odometer reading is required"] else []) ++
  (if isNegOpt c.engineHours then ["Valid engine hours is required"] else []) ++
  (if isMissingDate c.startDate then ["Start date is required"] else []) ++
  (if isMissingDate c.endDate then ["End date is required"] else []) ++
  (if isBlankOpt c.serviceDescription then ["Service description is required"] else []) ++
  (if datesOutOfOrder c then ["End date must be after start date"] else [])

/-- View a `Draft` as a validation candidate (all fields present). -/
def Draft.toCandidate (d : Draft) : Candidate :=
  { providerId := some d.providerId
    serviceOrder := some d.serviceOrder
    carId := some d.carId
    odometer := some d.odometer
    engineHours := some d.engineHours
    startDate := some d.startDate
    endDate := some d.endDate
    serviceDescription := some d.serviceDescription }

/-- View a `ServiceLog` as a validation candidate (all fields present). -/
def ServiceLog.toCandidate (l : ServiceLog) : Candidate :=
  { providerId := some l.providerId
    serviceOrder := some l.serviceOrder
    carId := some l.carId
    odometer := some l.odometer
    engineHours := some l.engineHours
    startDate := some l.startDate
    endDate := some l.endDate
    serviceDescription := some l.serviceDescription }

/-! ### Reducer payloads

`updateDraft` and `updateEditingLogField` take `{ field: keyof …; value: any }`;
each key of the interface becomes one typed constructor. -/

inductive DraftUpdate where
  | id (v : String)
  | providerId (v : String)
  | serviceOrder (v : String)
  | carId (v : String)
  | odometer (v : Int)
  | engineHours (v : Int)
  | startDate (v : String)
  | endDate (v : String)
  | type (v : ServiceType)
  | serviceDescription (v : String)
  | lastSaved (v : String)
  | isDirty (v : Bool)
deriving DecidableEq

/-- `(draft as any)[field] = value`. -/
def setDraftField (d : Draft) : DraftUpdate → Draft
  | .id v => { d with id := v }
  | .providerId v => { d with providerId := v }
  | .serviceOrder v => { d with serviceOrder := v }
  | .carId v => { d with carId := v }
  | .odometer v => { d with odometer := v }
  | .engineHours v => { d with engineHours := v }
  | .startDate v => { d with startDate := v }
  | .endDate v => { d with endDate := v }
  | .type v => { d with type := v }
  | .serviceDescription v => { d with serviceDescription := v }
  | .lastSaved v => { d with lastSaved := v }
  | .isDirty v => { d with isDirty := v }

inductive LogUpdate where
  | id (v : String)
  | providerId (v : String)
  | serviceOrder (v : String)
  | carId (v : String)
  | odometer (v : Int)
  | engineHours (v : Int)
  | startDate (v : String)
  | endDate (v : String)
  | type (v : ServiceType)
  | serviceDescription (v : String)
  | createdAt (v : String)
deriving DecidableEq

/-- `{ ...log, [field]: value }`. -/
def setLogField (l : ServiceLog) : LogUpdate → ServiceLog
  | .id v => { l with id := v }
  | .providerId v => { l with providerId := v }
  | .serviceOrder v => { l with serviceOrder := v }
  | .carId v => { l with carId := v }
  | .odometer v => { l with odometer := v }
  | .engineHours v => { l with engineHours := v }
  | .startDate v => { l with startDate := v }
  | .endDate v => { l with endDate := v }
  | .type v => { l with type := v }
  | .serviceDescription v => { l with serviceDescription := v }
  | .createdAt v => { l with createdAt := v }

/-- `Partial<Filters>` payload of `setFilters`. -/
structure FiltersPatch where
  startDateFrom : Option String
  startDateTo : Option String
  type : Option (Option ServiceType)
deriving DecidableEq

/-! ### Reducers (`slice.reducers`) -/

/-- Replace the first element satisfying `p` — the effect of
`findIndex` + `array[i] = b` (and of mutating the result of `find`). -/
def replaceFirst (p : α → Bool) (b : α) : List α → List α
  | [] => []
  | a :: l => if p a then b :: l else a :: replaceFirst p b l

/-- `state.currentDraft?.id === i`. -/
def currentIdIs (s : RootStateServiceLog) (i : String) : Bool :=
  match s.currentDraft with
  | some c => c.id == i
  | none => false

/-- `createDraft`: fresh id, `lastSaved = now` and the `today`/`today+1`
defaults are clock readings, passed explicitly. -/
def createDraft (freshId lastSavedNow today tomorrow : String)
    (s : RootStateServiceLog) : RootStateServiceLog :=
  let newDraft : Draft :=
    { providerId := "", serviceOrder := "", carId := ""
      odometer := 0, engineHours := 0
      startDate := today, endDate := tomorrow
      type := .planned, serviceDescription := ""
      id := freshId, lastSaved := lastSavedNow, isDirty := false }
  { s with drafts := s.drafts ++ [newDraft], currentDraft := some newDraft }

def setCurrentDraft (s : RootStateServiceLog) (p : Option Draft) :
    RootStateServiceLog :=
  { s with currentDraft := p }

/-- Field assignment plus dirty flag plus the `startDate → endDate`
auto-advance of `updateDraft`/`updateEditingLogField`.  `none` models
the exception thrown when the new start date is truthy but invalid. -/
def applyDraftUpdate (d : Draft) (u : DraftUpdate) : Option Draft :=
  let d1 := { setDraftField d u with isDirty := true }
  match u with
  | .startDate v =>
    if v == "" then some d1
    else (nextDayStr v).map (fun e => { d1 with endDate := e })
  | _ => some d1

def updateDraft (s : RootStateServiceLog) (i : String) (u : DraftUpdate) :
    Option RootStateServiceLog :=
  match s.drafts.find? (fun d => d.id == i) with
  | none => some s
  | some d0 =>
    (applyDraftUpdate d0 u).map (fun d1 =>
      { s with drafts := replaceFirst (fun d => d.id == i) d1 s.drafts
               currentDraft := if currentIdIs s i then some d1 else s.currentDraft
               saveStatus := .saving })

def deleteDraft (s : RootStateServiceLog) (i : String) : RootStateServiceLog :=
  { s with drafts := s.drafts.filter (fun d => !(d.id == i))
           currentDraft := if currentIdIs s i then none else s.currentDraft }

def clearAllDrafts (s : RootStateServiceLog) : RootStateServiceLog :=
  { s with drafts := [], currentDraft := none }

/-- The `ServiceLog` built by `createServiceLog`:
`{ ...currentDraft, id: fresh, createdAt: now } as ServiceLog`.
The spread copies every own property of the draft, so the runtime
record also carries the draft's `lastSaved` and `isDirty`; the
`as ServiceLog` cast only hides them from the type checker. -/
def promoteDraft (cur : Draft) (freshId createdAt : String) : ServiceLog :=
  { id := freshId
    providerId := cur.providerId
    serviceOrder := cur.serviceOrder
    carId := cur.carId
    odometer := cur.odometer
    engineHours := cur.engineHours
    startDate := cur.startDate
    endDate := cur.endDate
    type := cur.type
    serviceDescription := cur.serviceDescription
    createdAt := createdAt
    lastSaved := some cur.lastSaved
    isDirty := some cur.isDirty }

def createServiceLog (freshId createdAt : String) (s : RootStateServiceLog) :
    RootStateServiceLog :=
  match s.currentDraft with
  | none => { s with validationErrors := ["No draft selected"] }
  | some cur =>
    let errors := validateServiceLog cur.toCandidate
    if errors.isEmpty then
      { s with serviceLogs := s.serviceLogs ++ [promoteDraft cur freshId createdAt]
               drafts := s.drafts.filter (fun d => !(d.id == cur.id))
               currentDraft := none
               validationErrors := [] }
    else { s with validationErrors := errors }

def setEditingLog (s : RootStateServiceLog) (p : Option ServiceLog) :
    RootStateServiceLog :=
  { s with editingLog := p, validationErrors := [] }

def updateEditingLogField (s : RootStateServiceLog) (u : LogUpdate) :
    Option RootStateServiceLog :=
  match s.editingLog with
  | none => some s
  | some e =>
    let updated := setLogField e u
    match u with
    | .startDate v =>
      if v == "" then some { s with editingLog := some updated }
      else (nextDayStr v).map
        (fun en => { s with editingLog := some { updated with endDate := en } })
    | _ => some { s with editingLog := some updated }

def saveEditingLog (s : RootStateServiceLog) : RootStateServiceLog :=
  match s.editingLog with
  | none => s
  | some e =>
    let errors := validateServiceLog e.toCandidate
    if errors.isEmpty then
      { s with serviceLogs := s.serviceLogs.map (fun l => if l.id == e.id then e else l)
               editingLog := none
               showFilters := false
               saveStatus := .idle
               validationErrors := [] }
    else { s with validationErrors := errors }

def deleteServiceLog (s : RootStateServiceLog) (i : String) : RootStateServiceLog :=
  { s with serviceLogs := s.serviceLogs.filter (fun l => !(l.id == i))
           editingLog := match s.editingLog with
                         | some e => if e.id == i then none else some e
                         | none => none }

def setSearchTerm (s : RootStateServiceLog) (t : String) : RootStateServiceLog :=
  { s with searchTerm := t }

def setFilters (s : RootStateServiceLog) (p : FiltersPatch) : RootStateServiceLog :=
  { s with filters :=
      { startDateFrom := p.startDateFrom.getD s.filters.startDateFrom
        startDateTo := p.startDateTo.getD s.filters.startDateTo
        type := p.type.getD s.filters.type } }

def toggleFilters (s : RootStateServiceLog) : RootStateServiceLog :=
  { s with showFilters := !s.showFilters }

def clearFilters (s : RootStateServiceLog) : RootStateServiceLog :=
  { s with searchTerm := ""
           filters := { startDateFrom := "", startDateTo := "", type := none } }

def setSaveStatus (s : RootStateServiceLog) (v : SaveStatus) : RootStateServiceLog :=
  { s with saveStatus := v }

def setValidationErrors (s : RootStateServiceLog) (es : List String) :
    RootStateServiceLog :=
  { s with validationErrors := es }

def markDraftSaved (s : RootStateServiceLog) (i : String)
    (givenLastSaved : Option String) (now : String) : RootStateServiceLog :=
  match s.drafts.find? (fun d => d.id == i) with
  | none => s
  | some d0 =>
    let d1 := { d0 with isDirty := false, lastSaved := givenLastSaved.getD now }
    { s with drafts := replaceFirst (fun d => d.id == i) d1 s.drafts
             currentDraft := if currentIdIs s d0.id then some d1 else s.currentDraft }

/-! ### Persistence utilities

The JSON blob written at `LOCAL_STORAGE_KEY` has the fixed shape below;
`JSON.stringify`/`JSON.parse` on it are modelled as the identity on the
structured value, and `localStorage` as a key-indexed map. -/

def LOCAL_STORAGE_KEY : String := "serviceLogManager_v1"

structure StoredBlob where
  serviceLogs : List ServiceLog
  drafts : List Draft
  currentDraft : Option Draft
deriving DecidableEq

def persistToLocalStorage (s : RootStateServiceLog)
    (storage : String → Option StoredBlob) : String → Option StoredBlob :=
  fun k =>
    if k = LOCAL_STORAGE_KEY then
      some { serviceLogs := s.serviceLogs
             drafts := s.drafts.map (fun d => { d with isDirty := false })
             currentDraft := s.currentDraft.map (fun d => { d with isDirty := false }) }
    else storage k

def loadFromLocalStorage (storage : String → Option StoredBlob) :
    Option StoredBlob :=
  storage LOCAL_STORAGE_KEY

/-! ### Search/filter projection (`filteredLogs` in `ServiceLogManager`) -/

/-- The string renderings `Object.values(log)` followed by
`.toString()` produces, in the runtime insertion order of a promoted
record.  `Object.values` iterates every own enumerable property, so on
a record built by `createServiceLog` the leaked `lastSaved` and
`isDirty` (rendered `"true"`/`"false"`) are searched too; a record
object lacking the properties contributes nothing for them. -/
def ServiceLog.renderedFields (l : ServiceLog) : List String :=
  [l.providerId, l.serviceOrder, l.carId,
   toString l.odometer, toString l.engineHours,
   l.startDate, l.endDate, l.type.render, l.serviceDescription, l.id] ++
  (match l.lastSaved with
   | some t => [t]
   | none => []) ++
  (match l.isDirty with
   | some b => [if b then "true" else "false"]
   | none => []) ++
  [l.createdAt]

/-- The string renderings of the eleven Record fields the data model
declares — what the spec's search clause calls "the Record's fields". -/
def ServiceLog.declaredFields (l : ServiceLog) : List String :=
  [l.id, l.providerId, l.serviceOrder, l.carId,
   toString l.odometer, toString l.engineHours,
   l.startDate, l.endDate, l.type.render, l.serviceDescription, l.createdAt]

def matchesSearch (term : String) (l : ServiceLog) : Bool :=
  term == "" ||
    l.renderedFields.any (fun v => strIncludes ⟨lowerChars v⟩ ⟨lowerChars term⟩)

def matchesDateRange (f : Filters) (l : ServiceLog) : Bool :=
  (f.startDateFrom == "" || decide (f.startDateFrom ≤ l.startDate)) &&
  (f.startDateTo == "" || decide (l.startDate ≤ f.startDateTo))

def matchesType (f : Filters) (l : ServiceLog) : Bool :=
  match f.type with
  | none => true
  | some t => l.type == t

def filteredLogs (s : RootStateServiceLog) : List ServiceLog :=
  s.serviceLogs.filter (fun l =>
    matchesSearch s.searchTerm l && matchesDateRange s.filters l && matchesType s.filters l)

/-! ### Spec-side view of the validation engine (§4.1 of the spec)

The nine rules, in the spec's fixed order, each with its fixed message. -/

inductive Rule where
  | providerId
  | serviceOrder
  | carId
  | odometer
  | engineHours
  | startDate
  | endDate
  | serviceDescription
  | dateOrder
deriving DecidableEq, Fintype

/-- Whether candidate `c` violates a given rule. -/
def ruleViolated (c : Candidate) : Rule → Bool
  | .providerId => isBlankOpt c.providerId
  | .serviceOrder => isBlankOpt c.serviceOrder
  | .carId => isBlankOpt c.carId
  | .odometer => isNegOpt c.odometer
  | .engineHours => isNegOpt c.engineHours
  | .startDate => isMissingDate c.startDate
  | .endDate => isMissingDate c.endDate
  | .serviceDescription => isBlankOpt c.serviceDescription
  | .dateOrder => datesOutOfOrder c

/-- The fixed message of each rule. -/
def ruleMessage : Rule → String
  | .providerId => "Provider ID is required"
  | .serviceOrder => "Service Order is required"
  | .carId => "Car ID is required"
  | .odometer => "Valid odometer reading is required"
  | .engineHours => "Valid engine hours is required"
  | .startDate => "Start date is required"
  | .endDate => "End date is required"
  | .serviceDescription => "Service description is required"
  | .dateOrder => "End date must be after start date"

/-- The fixed order in which the checks run. -/
def ruleOrder : List Rule :=
  [.providerId, .serviceOrder, .carId, .odometer, .engineHours,
   .startDate, .endDate, .serviceDescription, .dateOrder]

theorem ruleMessage_inj : ∀ r r' : Rule, ruleMessage r = ruleMessage r' → r = r' := by
  decide

theorem mem_ruleOrder (r : Rule) : r ∈ ruleOrder := by
  cases r <;> simp [ruleOrder]

theorem validate_eq_filterMap (c : Candidate) :
    validateServiceLog c = (ruleOrder.filter (ruleViolated c)).map ruleMessage := by
  simp only [validateServiceLog, ruleOrder, List.filter_cons, List.filter_nil,
    ruleViolated]
  cases h1 : isBlankOpt c.providerId <;>
  cases h2 : isBlankOpt c.serviceOrder <;>
  cases h3 : isBlankOpt c.carId <;>
  cases h4 : isNegOpt c.odometer <;>
  cases h5 : isNegOpt c.engineHours <;>
  cases h6 : isMissingDate c.startDate <;>
  cases h7 : isMissingDate c.endDate <;>
  cases h8 : isBlankOpt c.serviceDescription <;>
  cases h9 : datesOutOfOrder c <;>
  simp [ruleMessage]

theorem validate_empty_iff (c : Candidate) :
    validateServiceLog c = [] ↔ ruleOrder.all (fun r => !(ruleViolated c r)) = true := by
  rw [validate_eq_filterMap]
  simp [List.filter_eq_nil_iff]

theorem mem_validate_iff (c : Candidate) (r : Rule) :
    ruleMessage r ∈ validateServiceLog c ↔ ruleViolated c r = true := by
  rw [validate_eq_filterMap]
  constructor
  · intro h
    rcases List.mem_map.mp h with ⟨r', hr', heq⟩
    rcases List.mem_filter.mp hr' with ⟨-, hv⟩
    exact ruleMessage_inj r' r heq ▸ hv
  · intro hv
    exact List.mem_map.mpr ⟨r, List.mem_filter.mpr ⟨mem_ruleOrder r, hv⟩, rfl⟩

/-! ### Sample data used by witnesses -/

/-- A fully valid draft (the §8 scenario values). -/
def sampleDraft : Draft :=
  { id := "draft_1", providerId := "P1", serviceOrder := "S1", carId := "C1"
    odometer := 100, engineHours := 5
    startDate := "2024-01-01", endDate := "2024-01-02"
    type := .planned, serviceDescription := "oil change"
    lastSaved := "2024-01-01T00:00:00.000Z", isDirty := false }

/-- A fully valid committed record, carrying the runtime properties a
promoted record has. -/
def sampleLog : ServiceLog :=
  { id := "log_1", providerId := "P1", serviceOrder := "S1", carId := "C1"
    odometer := 100, engineHours := 5
    startDate := "2024-01-01", endDate := "2024-01-02"
    type := .planned, serviceDescription := "oil change"
    createdAt := "2024-01-01T00:00:00.000Z"
    lastSaved := some "2024-01-01T00:00:00.000Z", isDirty := some false }

/-- State with `sampleDraft` present and current, and an open edit
session on `sampleLog`, which is in the record collection. -/
def sampleState : RootStateServiceLog :=
  { initialState with
      serviceLogs := [sampleLog]
      drafts := [sampleDraft]
      currentDraft := some sampleDraft
      editingLog := some sampleLog }

/-! ### Claims -/

/-- C2: `validateServiceLog` is a pure function (determinism is
intrinsic to a Lean `def`); it equals the ordered projection of the
nine fixed rules — each violated rule contributes exactly its fixed
message, in the fixed rule order —, it returns `[]` iff every rule is
satisfied, and a rule's message is present iff that rule is violated
(1:1 correspondence). -/
theorem validation_characterization (c : Candidate) (r : Rule) :
    validateServiceLog c = (ruleOrder.filter (ruleViolated c)).map ruleMessage ∧
    (validateServiceLog c = [] ↔ ruleOrder.all (fun r' => !(ruleViolated c r')) = true) ∧
    (ruleMessage r ∈ validateServiceLog c ↔ ruleViolated c r = true) :=
  ⟨validate_eq_filterMap c, validate_empty_iff c, mem_validate_iff c r⟩

/-- C1: with a current draft selected, `createServiceLog` validates it;
on violations it only stores them (records and drafts untouched, errors
equal `validateServiceLog` of the draft); on success the record
collection gains exactly the promoted record (shared fields plus the
fresh `id`/`createdAt`), the draft is removed, the current-draft
pointer becomes `none` and the errors are cleared. -/
theorem promotion_contract (s : RootStateServiceLog) (cur : Draft)
    (freshId createdAt : String) (hc : s.currentDraft = some cur) :
    createServiceLog freshId createdAt s =
      if (validateServiceLog cur.toCandidate).isEmpty then
        { s with serviceLogs := s.serviceLogs ++ [promoteDraft cur freshId createdAt]
                 drafts := s.drafts.filter (fun d => !(d.id == cur.id))
                 currentDraft := none
                 validationErrors := [] }
      else { s with validationErrors := validateServiceLog cur.toCandidate } := by
  simp only [createServiceLog, hc]

/-- Witness for C1 at a concrete state whose current draft is valid. -/
theorem promotion_contract_witness :
    sampleState.currentDraft = some sampleDraft ∧
    createServiceLog "log_2" "2024-01-03T00:00:00.000Z" sampleState =
      (if (validateServiceLog sampleDraft.toCandidate).isEmpty then
        { sampleState with
            serviceLogs := sampleState.serviceLogs ++
              [promoteDraft sampleDraft "log_2" "2024-01-03T00:00:00.000Z"]
            drafts := sampleState.drafts.filter (fun d => !(d.id == sampleDraft.id))
            currentDraft := none
            validationErrors := [] }
      else { sampleState with validationErrors := validateServiceLog sampleDraft.toCandidate }) :=
  ⟨rfl, promotion_contract sampleState sampleDraft "log_2" "2024-01-03T00:00:00.000Z" rfl⟩

/-- C9: with no current draft, `createServiceLog` sets the validation
errors to exactly `["No draft selected"]` and changes nothing else. -/
theorem promotion_no_draft_selected (s : RootStateServiceLog)
    (freshId createdAt : String) (hc : s.currentDraft = none) :
    createServiceLog freshId createdAt s =
      { s with validationErrors := ["No draft selected"] } := by
  simp only [createServiceLog, hc]

/-- Witness for C9 at the initial state. -/
theorem promotion_no_draft_selected_witness :
    initialState.currentDraft = none ∧
    createServiceLog "log_1" "2024-01-01T00:00:00.000Z" initialState =
      { initialState with validationErrors := ["No draft selected"] } :=
  ⟨rfl, promotion_no_draft_selected initialState "log_1" "2024-01-01T00:00:00.000Z" rfl⟩

/-- C3: with an open edit session, `saveEditingLog` validates the
working copy; on violations it only stores the errors (session stays
open, records untouched); on success it replaces, in place, every
record sharing the working copy's id, closes the session, clears the
errors and resets the save status to `idle`. -/
theorem edit_commit_contract (s : RootStateServiceLog) (e : ServiceLog)
    (he : s.editingLog = some e) :
    saveEditingLog s =
      if (validateServiceLog e.toCandidate).isEmpty then
        { s with serviceLogs := s.serviceLogs.map (fun l => if l.id == e.id then e else l)
                 editingLog := none
                 showFilters := false
                 saveStatus := .idle
                 validationErrors := [] }
      else { s with validationErrors := validateServiceLog e.toCandidate } := by
  simp only [saveEditingLog, he]

/-- Witness for C3 at a concrete state with an open edit session. -/
theorem edit_commit_contract_witness :
    sampleState.editingLog = some sampleLog ∧
    saveEditingLog sampleState =
      (if (validateServiceLog sampleLog.toCandidate).isEmpty then
        { sampleState with
            serviceLogs := sampleState.serviceLogs.map
              (fun l => if l.id == sampleLog.id then sampleLog else l)
            editingLog := none
            showFilters := false
            saveStatus := .idle
            validationErrors := [] }
      else { sampleState with validationErrors := validateServiceLog sampleLog.toCandidate }) :=
  ⟨rfl, edit_commit_contract sampleState sampleLog rfl⟩

/-- Replacing the record with the session's id and then discarding all
records with that id is the same as discarding them before the
replacement: all other records are untouched. -/
theorem filter_ne_map_replace (e : ServiceLog) (logs : List ServiceLog) :
    (logs.map (fun l => if l.id == e.id then e else l)).filter (fun l => !(l.id == e.id)) =
      logs.filter (fun l => !(l.id == e.id)) := by
  induction logs with
  | nil => rfl
  | cons a t ih =>
    cases hb : a.id == e.id
    · rw [List.map_cons, if_neg (by simp [hb]), List.filter_cons, List.filter_cons, ih]
    · rw [List.map_cons, if_pos hb, List.filter_cons, List.filter_cons, ih,
        if_neg (by simp), if_neg (by simp [hb])]

/-- C10: a successful `saveEditingLog` commit also sets the
filter-panel visibility flag to `false` — beyond the documented
effects — while leaving drafts, current draft, search term, filters and
every record other than the replaced one unchanged. -/
theorem edit_commit_hides_filter_panel (s : RootStateServiceLog) (e : ServiceLog)
    (he : s.editingLog = some e) (hv : validateServiceLog e.toCandidate = []) :
    (saveEditingLog s).showFilters = false ∧
    (saveEditingLog s).drafts = s.drafts ∧
    (saveEditingLog s).currentDraft = s.currentDraft ∧
    (saveEditingLog s).searchTerm = s.searchTerm ∧
    (saveEditingLog s).filters = s.filters ∧
    (saveEditingLog s).serviceLogs =
      s.serviceLogs.map (fun l => if l.id == e.id then e else l) ∧
    (saveEditingLog s).serviceLogs.filter (fun l => !(l.id == e.id)) =
      s.serviceLogs.filter (fun l => !(l.id == e.id)) := by
  have h1 : saveEditingLog s =
      { s with serviceLogs := s.serviceLogs.map (fun l => if l.id == e.id then e else l)
               editingLog := none
               showFilters := false
               saveStatus := .idle
               validationErrors := [] } := by
    simp only [saveEditingLog, he, hv]
    rfl
  rw [h1]
  exact ⟨rfl, rfl, rfl, rfl, rfl, rfl, filter_ne_map_replace e s.serviceLogs⟩

/-- Witness for C10 at a concrete state with a valid open session. -/
theorem edit_commit_hides_filter_panel_witness :
    sampleState.editingLog = some sampleLog ∧
    validateServiceLog sampleLog.toCandidate = [] ∧
    ((saveEditingLog sampleState).showFilters = false ∧
     (saveEditingLog sampleState).drafts = sampleState.drafts ∧
     (saveEditingLog sampleState).currentDraft = sampleState.currentDraft ∧
     (saveEditingLog sampleState).searchTerm = sampleState.searchTerm ∧
     (saveEditingLog sampleState).filters = sampleState.filters ∧
     (saveEditingLog sampleState).serviceLogs =
       sampleState.serviceLogs.map
         (fun l => if l.id == sampleLog.id then sampleLog else l) ∧
     (saveEditingLog sampleState).serviceLogs.filter (fun l => !(l.id == sampleLog.id)) =
       sampleState.serviceLogs.filter (fun l => !(l.id == sampleLog.id))) :=
  ⟨rfl, by decide, edit_commit_hides_filter_panel sampleState sampleLog rfl (by decide)⟩

/-- C6: persist-then-load on the same key, with no intervening write,
returns exactly the serialized blob: the records and drafts of the
state, every stored draft forced non-dirty, and the current draft also
forced non-dirty. -/
theorem persistence_roundtrip (s : RootStateServiceLog)
    (storage : String → Option StoredBlob) :
    loadFromLocalStorage (persistToLocalStorage s storage) =
      some { serviceLogs := s.serviceLogs
             drafts := s.drafts.map (fun d => { d with isDirty := false })
             currentDraft := s.currentDraft.map (fun d => { d with isDirty := false }) } ∧
    (s.drafts.map (fun d => ({ d with isDirty := false } : Draft))).all
      (fun d => !d.isDirty) = true ∧
    (s.currentDraft.map (fun d => ({ d with isDirty := false } : Draft))).all
      (fun c => !c.isDirty) = true := by
  refine ⟨rfl, ?_, ?_⟩
  · rw [List.all_eq_true]
    intro b hb
    rcases List.mem_map.mp hb with ⟨d, -, rfl⟩
    rfl
  · cases s.currentDraft <;> rfl

/-! ### Search/filter characterization lemmas -/

theorem matchesSearch_iff (t : String) (l : ServiceLog) :
    matchesSearch t l = true ↔
      (t = "" ∨ ∃ v ∈ l.renderedFields,
        strIncludes ⟨lowerChars v⟩ ⟨lowerChars t⟩ = true) := by
  simp [matchesSearch, List.any_eq_true]

theorem matchesDateRange_iff (f : Filters) (l : ServiceLog) :
    matchesDateRange f l = true ↔
      ((f.startDateFrom = "" ∨ f.startDateFrom ≤ l.startDate) ∧
       (f.startDateTo = "" ∨ l.startDate ≤ f.startDateTo)) := by
  simp [matchesDateRange]

theorem matchesType_iff (f : Filters) (l : ServiceLog) :
    matchesType f l = true ↔ (f.type = none ∨ f.type = some l.type) := by
  cases h : f.type <;> simp [matchesType, h, eq_comm (a := l.type)]

/-- C7 (amended): the derived filtered view contains a record iff it
is in the record collection and passes the search clause — empty term,
or the term a case-insensitive substring of the rendering of at least
one value the record carries at runtime, which for promoted records
includes the leaked `lastSaved`/`isDirty` besides the declared
fields — and the two inclusive start-date bounds (empty = unbounded,
lexicographic string comparison as in JS) and the type filter
(empty = any); the projection is a sublist of the collection, which it
does not mutate. -/
theorem search_filter_projection (s : RootStateServiceLog) (l : ServiceLog) :
    (l ∈ filteredLogs s ↔
      (l ∈ s.serviceLogs ∧
        (s.searchTerm = "" ∨ ∃ v ∈ l.renderedFields,
          strIncludes ⟨lowerChars v⟩ ⟨lowerChars s.searchTerm⟩ = true) ∧
        (s.filters.startDateFrom = "" ∨ s.filters.startDateFrom ≤ l.startDate) ∧
        (s.filters.startDateTo = "" ∨ l.startDate ≤ s.filters.startDateTo) ∧
        (s.filters.type = none ∨ s.filters.type = some l.type))) ∧
    (filteredLogs s).Sublist s.serviceLogs := by
  constructor
  · rw [filteredLogs, List.mem_filter, Bool.and_eq_true, Bool.and_eq_true,
      matchesSearch_iff, matchesDateRange_iff, matchesType_iff]
    tauto
  · exact List.filter_sublist s.serviceLogs

/-- A promoted record: no declared field's rendering contains the word
`false`, but the leaked `isDirty` renders as `"false"`. -/
def cexLog : ServiceLog :=
  { id := "log_9", providerId := "AA", serviceOrder := "BB", carId := "CC"
    odometer := 1, engineHours := 2
    startDate := "2024-03-03", endDate := "2024-03-04"
    type := .planned, serviceDescription := "DD", createdAt := "EE"
    lastSaved := some "FF", isDirty := some false }

/-- State searching the records for the term `false`, no filters. -/
def cexState : RootStateServiceLog :=
  { initialState with serviceLogs := [cexLog], searchTerm := "false" }

/-- C7 counterexample: with search term `false` and a promoted record,
`filteredLogs` keeps the record — the term matches the runtime
rendering of the leaked `isDirty` — although no declared Record field's
rendering contains it, so the claimed iff over "the Record's fields"
fails in its only-if direction. -/
theorem search_filter_projection_counterexample :
    ¬ (cexLog ∈ filteredLogs cexState ↔
        (cexLog ∈ cexState.serviceLogs ∧
          (cexState.searchTerm = "" ∨ ∃ v ∈ cexLog.declaredFields,
            strIncludes ⟨lowerChars v⟩ ⟨lowerChars cexState.searchTerm⟩ = true) ∧
          (cexState.filters.startDateFrom = "" ∨
            cexState.filters.startDateFrom ≤ cexLog.startDate) ∧
          (cexState.filters.startDateTo = "" ∨
            cexLog.startDate ≤ cexState.filters.startDateTo) ∧
          (cexState.filters.type = none ∨ cexState.filters.type = some cexLog.type))) := by
  decide

/-! ### Start-date auto-advance (C4) -/

/-- Whether a draft update targets the `startDate` field. -/
def DraftUpdate.isStartDateUpd : DraftUpdate → Bool
  | .startDate _ => true
  | _ => false

/-- Whether an edit-session update targets the `startDate` field. -/
def LogUpdate.isStartDateUpd : LogUpdate → Bool
  | .startDate _ => true
  | _ => false

/-- The end date after a non-`startDate` update: the assigned value for
an `endDate` update, the previous end date otherwise ("as given"). -/
def draftUpdateEndDate (u : DraftUpdate) (old : String) : String :=
  match u with
  | .endDate w => w
  | _ => old

/-- Same as `draftUpdateEndDate` for edit-session updates. -/
def logUpdateEndDate (w : LogUpdate) (old : String) : String :=
  match w with
  | .endDate x => x
  | _ => old

theorem parseYMD_ne_empty {v : String} {n : Nat × Nat × Nat}
    (hv : parseYMD v = some n) : (v == "") = false := by
  cases hb : v == ""
  · rfl
  · have hv0 : v = "" := eq_of_beq hb
    subst hv0
    have hnone : parseYMD "" = none := rfl
    rw [hnone] at hv
    exact Option.noConfusion hv

/-- C4: setting `startDate` (to a well-formed date) on a draft of the
collection, or on the open edit session, always forces
`endDate = startDate + 1 calendar day`, overwriting any previously
chosen end date; setting any other field leaves the end date as given
(assignment for `endDate` itself, untouched otherwise). -/
theorem startDate_auto_advance
    (s : RootStateServiceLog) (i v : String) (n : Nat × Nat × Nat)
    (d0 : Draft) (e0 : ServiceLog) (u : DraftUpdate) (w : LogUpdate)
    (hv : parseYMD v = some n)
    (hfind : s.drafts.find? (fun d => d.id == i) = some d0)
    (hedit : s.editingLog = some e0)
    (hu : u.isStartDateUpd = false) (hw : w.isStartDateUpd = false) :
    updateDraft s i (.startDate v) =
      some { s with
        drafts := replaceFirst (fun d => d.id == i)
          { d0 with startDate := v, isDirty := true, endDate := fmtYMD (nextDay n) }
          s.drafts
        currentDraft := if currentIdIs s i then
            some { d0 with startDate := v, isDirty := true, endDate := fmtYMD (nextDay n) }
          else s.currentDraft
        saveStatus := .saving } ∧
    (applyDraftUpdate d0 u).map Draft.endDate = some (draftUpdateEndDate u d0.endDate) ∧
    updateEditingLogField s (.startDate v) =
      some { s with
        editingLog := some { e0 with startDate := v, endDate := fmtYMD (nextDay n) } } ∧
    updateEditingLogField s w = some { s with editingLog := some (setLogField e0 w) } ∧
    (setLogField e0 w).endDate = logUpdateEndDate w e0.endDate := by
  refine ⟨?_, ?_, ?_, ?_, ?_⟩
  · simp only [updateDraft, hfind, applyDraftUpdate, setDraftField,
      parseYMD_ne_empty hv, nextDayStr, hv, Option.map_some', Bool.false_eq_true,
      if_false]
  · cases u <;> simp [applyDraftUpdate, setDraftField, draftUpdateEndDate,
      DraftUpdate.isStartDateUpd] at hu ⊢
  · simp only [updateEditingLogField, hedit, setLogField,
      parseYMD_ne_empty hv, nextDayStr, hv, Option.map_some', Bool.false_eq_true,
      if_false]
  · cases w <;> simp [updateEditingLogField, hedit, setLogField,
      LogUpdate.isStartDateUpd] at hw ⊢
  · cases w <;> simp [setLogField, logUpdateEndDate, LogUpdate.isStartDateUpd] at hw ⊢

/-- Witness for C4 at a concrete state, draft and edit session. -/
theorem startDate_auto_advance_witness :
    parseYMD "2024-01-31" = some (2024, 1, 31) ∧
    sampleState.drafts.find? (fun d => d.id == "draft_1") = some sampleDraft ∧
    sampleState.editingLog = some sampleLog ∧
    (DraftUpdate.providerId "x").isStartDateUpd = false ∧
    (LogUpdate.carId "y").isStartDateUpd = false ∧
    (updateDraft sampleState "draft_1" (.startDate "2024-01-31") =
      some { sampleState with
        drafts := replaceFirst (fun d => d.id == "draft_1")
          { sampleDraft with startDate := "2024-01-31", isDirty := true
                             endDate := fmtYMD (nextDay (2024, 1, 31)) }
          sampleState.drafts
        currentDraft := if currentIdIs sampleState "draft_1" then
            some { sampleDraft with startDate := "2024-01-31", isDirty := true
                                    endDate := fmtYMD (nextDay (2024, 1, 31)) }
          else sampleState.currentDraft
        saveStatus := .saving } ∧
    (applyDraftUpdate sampleDraft (.providerId "x")).map Draft.endDate =
      some (draftUpdateEndDate (.providerId "x") sampleDraft.endDate) ∧
    updateEditingLogField sampleState (.startDate "2024-01-31") =
      some { sampleState with
        editingLog := some { sampleLog with startDate := "2024-01-31"
                                            endDate := fmtYMD (nextDay (2024, 1, 31)) } } ∧
    updateEditingLogField sampleState (.carId "y") =
      some { sampleState with editingLog := some (setLogField sampleLog (.carId "y")) } ∧
    (setLogField sampleLog (.carId "y")).endDate =
      logUpdateEndDate (.carId "y") sampleLog.endDate) :=
  ⟨by decide, rfl, rfl, rfl, rfl,
   startDate_auto_advance sampleState "draft_1" "2024-01-31" (2024, 1, 31)
     sampleDraft sampleLog (.providerId "x") (.carId "y")
     (by decide) rfl rfl rfl rfl⟩

/-! ### Missing-id operations (C8) -/

/-- A draft held only by the current-draft pointer, not in the
collection — a state violating the §3 pointer invariant. -/
def staleDraft : Draft :=
  { id := "ghost", providerId := "", serviceOrder := "", carId := ""
    odometer := 0, engineHours := 0, startDate := "", endDate := ""
    type := .planned, serviceDescription := "", lastSaved := "", isDirty := false }

def staleState : RootStateServiceLog :=
  { initialState with currentDraft := some staleDraft }

/-- C8 counterexample: in a state whose current-draft pointer holds an
id absent from the draft collection, `deleteDraft` of that absent id
changes the state (it nulls the pointer), so the claim's unrestricted
"every state" quantification fails. -/
theorem missing_id_noop_counterexample :
    staleState.drafts.all (fun d => !(d.id == "ghost")) = true ∧
    deleteDraft staleState "ghost" ≠ staleState :=
  ⟨rfl, by decide⟩

theorem find?_eq_none_of_all {l : List Draft} {i : String}
    (h : l.all (fun d => !(d.id == i)) = true) :
    l.find? (fun d => d.id == i) = none := by
  rw [List.find?_eq_none]
  intro d hdm
  have hd := List.all_eq_true.mp h d hdm
  simp at hd
  simp [hd]

/-- C8 (amended): for an id absent from the relevant collection,
`updateDraft` and `markDraftSaved` are unconditional no-ops (and never
fail); `deleteDraft` and `deleteServiceLog` are no-ops provided the
absent id is also not the stale id held by the current-draft pointer
(resp. the open edit session) — which is automatic in states satisfying
the §3 pointer/session invariants. -/
theorem missing_id_noop (s : RootStateServiceLog) (i : String) (u : DraftUpdate)
    (givenLastSaved : Option String) (now : String)
    (hd : s.drafts.all (fun d => !(d.id == i)) = true)
    (hl : s.serviceLogs.all (fun l => !(l.id == i)) = true)
    (hc : currentIdIs s i = false)
    (he : s.editingLog.all (fun e => !(e.id == i)) = true) :
    updateDraft s i u = some s ∧
    markDraftSaved s i givenLastSaved now = s ∧
    deleteDraft s i = s ∧
    deleteServiceLog s i = s := by
  have hfind := find?_eq_none_of_all hd
  have hfilter : s.drafts.filter (fun d => !(d.id == i)) = s.drafts :=
    List.filter_eq_self.mpr (List.all_eq_true.mp hd)
  have hfilter2 : s.serviceLogs.filter (fun l => !(l.id == i)) = s.serviceLogs :=
    List.filter_eq_self.mpr (List.all_eq_true.mp hl)
  refine ⟨?_, ?_, ?_, ?_⟩
  · rw [updateDraft, hfind]
  · rw [markDraftSaved, hfind]
  · rw [deleteDraft, hfilter, hc]
    rfl
  · have hmatch : (match s.editingLog with
        | some e => if e.id == i then none else some e
        | none => none) = s.editingLog := by
      cases hedlog : s.editingLog with
      | none => rfl
      | some e =>
        have hne : (e.id == i) = false := by
          rw [hedlog] at he
          simpa using he
        simp [hne]
    rw [deleteServiceLog, hfilter2, hmatch]

/-! ### Current-draft pointer invariant (C5) -/

/-- The §3 invariant: the current-draft pointer is `none` or holds a
draft physically present (value-equal) in the draft collection. -/
def pointerInv (s : RootStateServiceLog) : Bool :=
  match s.currentDraft with
  | none => true
  | some c => decide (c ∈ s.drafts)

theorem pointerInv_iff (s : RootStateServiceLog) :
    pointerInv s = true ↔ ∀ c, s.currentDraft = some c → c ∈ s.drafts := by
  cases h : s.currentDraft <;> simp [pointerInv, h]

theorem mem_replaceFirst_self {α : Type} {p : α → Bool} {b : α} {l : List α}
    (h : ∃ a ∈ l, p a = true) : b ∈ replaceFirst p b l := by
  induction l with
  | nil => simp at h
  | cons a t ih =>
    cases hp : p a
    · simp only [replaceFirst, hp, Bool.false_eq_true, if_false]
      rcases h with ⟨x, hx, hpx⟩
      rcases List.mem_cons.mp hx with rfl | hxt
      · rw [hpx] at hp
        exact Bool.noConfusion hp
      · exact List.mem_cons_of_mem a (ih ⟨x, hxt, hpx⟩)
    · simp only [replaceFirst, hp, if_true]
      exact List.mem_cons_self b t

theorem mem_replaceFirst_of_neg {α : Type} {p : α → Bool} {b c : α} {l : List α}
    (hc : c ∈ l) (hpc : p c = false) : c ∈ replaceFirst p b l := by
  induction l with
  | nil => simp at hc
  | cons a t ih =>
    rcases List.mem_cons.mp hc with rfl | hct
    · simp only [replaceFirst, hpc, Bool.false_eq_true, if_false]
      exact List.mem_cons_self c (replaceFirst p b t)
    · cases hp : p a
      · simp only [replaceFirst, hp, Bool.false_eq_true, if_false]
        exact List.mem_cons_of_mem a (ih hct)
      · simp only [replaceFirst, hp, if_true]
        exact List.mem_cons_of_mem b hct

/-- One §4 store operation.  `setCurrentDraftOp` carries the spec's
side condition that only a draft already present in the collection (or
`null`) is selected; the fallible updates step only on success. -/
inductive Step : RootStateServiceLog → RootStateServiceLog → Prop where
  | createDraftOp (s : RootStateServiceLog) (fid ls today tomorrow : String) :
      Step s (createDraft fid ls today tomorrow s)
  | setCurrentDraftOp (s : RootStateServiceLog) (p : Option Draft)
      (hp : p = none ∨ ∃ d ∈ s.drafts, p = some d) :
      Step s (setCurrentDraft s p)
  | updateDraftOp (s s' : RootStateServiceLog) (i : String) (u : DraftUpdate)
      (h : updateDraft s i u = some s') : Step s s'
  | deleteDraftOp (s : RootStateServiceLog) (i : String) : Step s (deleteDraft s i)
  | clearAllDraftsOp (s : RootStateServiceLog) : Step s (clearAllDrafts s)
  | createServiceLogOp (s : RootStateServiceLog) (fid now : String) :
      Step s (createServiceLog fid now s)
  | setEditingLogOp (s : RootStateServiceLog) (p : Option ServiceLog) :
      Step s (setEditingLog s p)
  | updateEditingLogFieldOp (s s' : RootStateServiceLog) (u : LogUpdate)
      (h : updateEditingLogField s u = some s') : Step s s'
  | saveEditingLogOp (s : RootStateServiceLog) : Step s (saveEditingLog s)
  | deleteServiceLogOp (s : RootStateServiceLog) (i : String) :
      Step s (deleteServiceLog s i)
  | setSearchTermOp (s : RootStateServiceLog) (t : String) : Step s (setSearchTerm s t)
  | setFiltersOp (s : RootStateServiceLog) (p : FiltersPatch) : Step s (setFilters s p)
  | toggleFiltersOp (s : RootStateServiceLog) : Step s (toggleFilters s)
  | clearFiltersOp (s : RootStateServiceLog) : Step s (clearFilters s)
  | setSaveStatusOp (s : RootStateServiceLog) (v : SaveStatus) : Step s (setSaveStatus s v)
  | setValidationErrorsOp (s : RootStateServiceLog) (es : List String) :
      Step s (setValidationErrors s es)
  | markDraftSavedOp (s : RootStateServiceLog) (i : String) (ols : Option String)
      (now : String) : Step s (markDraftSaved s i ols now)

/-- States reachable from the initial state by §4 operations. -/
def Reachable (s : RootStateServiceLog) : Prop :=
  Relation.ReflTransGen Step initialState s

theorem saveEditingLog_frame (s : RootStateServiceLog) :
    (saveEditingLog s).drafts = s.drafts ∧
    (saveEditingLog s).currentDraft = s.currentDraft := by
  cases he : s.editingLog with
  | none =>
    simp only [saveEditingLog, he]
    constructor <;> trivial
  | some e =>
    simp only [saveEditingLog, he]
    cases hv : (validateServiceLog e.toCandidate).isEmpty
    · simp only [hv, Bool.false_eq_true, if_false]
      constructor <;> trivial
    · simp only [hv, if_true]
      constructor <;> trivial

theorem updateEditingLogField_frame {s s' : RootStateServiceLog} {u : LogUpdate}
    (h : updateEditingLogField s u = some s') :
    s'.drafts = s.drafts ∧ s'.currentDraft = s.currentDraft := by
  unfold updateEditingLogField at h
  split at h
  · obtain rfl := Option.some.inj h
    exact ⟨rfl, rfl⟩
  · split at h
    · split at h
      · obtain rfl := Option.some.inj h
        exact ⟨rfl, rfl⟩
      · rw [Option.map_eq_some'] at h
        obtain ⟨en, -, rfl⟩ := h
        exact ⟨rfl, rfl⟩
    · obtain rfl := Option.some.inj h
      exact ⟨rfl, rfl⟩

theorem updateDraft_cases {s s' : RootStateServiceLog} {i : String} {u : DraftUpdate}
    (h : updateDraft s i u = some s') :
    s' = s ∨ ∃ d0 d1, s.drafts.find? (fun d => d.id == i) = some d0 ∧
      applyDraftUpdate d0 u = some d1 ∧
      s'.drafts = replaceFirst (fun d => d.id == i) d1 s.drafts ∧
      s'.currentDraft = (if currentIdIs s i then some d1 else s.currentDraft) := by
  unfold updateDraft at h
  split at h
  · exact Or.inl (Option.some.inj h).symm
  · rename_i d0 hfind
    rw [Option.map_eq_some'] at h
    obtain ⟨d1, hd1, rfl⟩ := h
    exact Or.inr ⟨d0, d1, hfind, hd1, rfl, rfl⟩

theorem currentIdIs_false_beq {s : RootStateServiceLog} {i : String} {c : Draft}
    (hci : currentIdIs s i = false) (hc : s.currentDraft = some c) :
    (c.id == i) = false := by
  unfold currentIdIs at hci
  rw [hc] at hci
  exact hci

theorem step_preserves_pointerInv {s s' : RootStateServiceLog} (hs : Step s s')
    (hinv : ∀ c, s.currentDraft = some c → c ∈ s.drafts) :
    ∀ c, s'.currentDraft = some c → c ∈ s'.drafts := by
  cases hs with
  | createDraftOp fid ls today tomorrow =>
    intro c hc
    simp only [createDraft, Option.some.injEq] at hc
    simp [createDraft, ← hc]
  | setCurrentDraftOp p hp =>
    intro c hc
    rcases hp with rfl | ⟨d, hd, rfl⟩
    · simp [setCurrentDraft] at hc
    · simp only [setCurrentDraft, Option.some.injEq] at hc
      simpa [setCurrentDraft, ← hc] using hd
  | updateDraftOp a i u h =>
    intro c hc
    rcases updateDraft_cases h with rfl | ⟨d0, d1, hfind, hd1, hdrafts, hcur⟩
    · exact hinv c hc
    · rw [hdrafts]
      rw [hcur] at hc
      have hd0mem : d0 ∈ s.drafts := List.mem_of_find?_eq_some hfind
      have hd0p := List.find?_some hfind
      cases hci : currentIdIs s i
      · rw [hci] at hc
        simp only [Bool.false_eq_true, if_false] at hc
        exact mem_replaceFirst_of_neg (hinv c hc) (currentIdIs_false_beq hci hc)
      · rw [hci] at hc
        simp only [if_true, Option.some.injEq] at hc
        subst hc
        exact mem_replaceFirst_self ⟨d0, hd0mem, hd0p⟩
  | deleteDraftOp i =>
    intro c hc
    simp only [deleteDraft] at hc ⊢
    cases hci : currentIdIs s i
    · rw [hci] at hc
      simp only [Bool.false_eq_true, if_false] at hc
      exact List.mem_filter.mpr ⟨hinv c hc, by simp [currentIdIs_false_beq hci hc]⟩
    · rw [hci] at hc
      simp at hc
  | clearAllDraftsOp =>
    intro c hc
    simp [clearAllDrafts] at hc
  | createServiceLogOp fid now =>
    intro c hc
    unfold createServiceLog at hc ⊢
    cases hcd : s.currentDraft with
    | none =>
      rw [hcd] at hc
      exact Option.noConfusion hc
    | some cur =>
      rw [hcd] at hc
      cases hemp : (validateServiceLog cur.toCandidate).isEmpty
      · simp only [hemp, Bool.false_eq_true, if_false] at hc ⊢
        obtain rfl := Option.some.inj hc
        exact hinv _ hcd
      · simp only [hemp, if_true] at hc
        exact Option.noConfusion hc
  | setEditingLogOp p =>
    intro c hc
    exact hinv c hc
  | updateEditingLogFieldOp a u h =>
    intro c hc
    rw [(updateEditingLogField_frame h).2] at hc
    rw [(updateEditingLogField_frame h).1]
    exact hinv c hc
  | saveEditingLogOp =>
    intro c hc
    rw [(saveEditingLog_frame s).2] at hc
    rw [(saveEditingLog_frame s).1]
    exact hinv c hc
  | deleteServiceLogOp i =>
    intro c hc
    exact hinv c hc
  | setSearchTermOp t =>
    intro c hc
    exact hinv c hc
  | setFiltersOp p =>
    intro c hc
    exact hinv c hc
  | toggleFiltersOp =>
    intro c hc
    exact hinv c hc
  | clearFiltersOp =>
    intro c hc
    exact hinv c hc
  | setSaveStatusOp v =>
    intro c hc
    exact hinv c hc
  | setValidationErrorsOp es =>
    intro c hc
    exact hinv c hc
  | markDraftSavedOp i ols now =>
    intro c hc
    unfold markDraftSaved at hc ⊢
    cases hfind : s.drafts.find? (fun d => d.id == i) with
    | none =>
      rw [hfind] at hc
      exact hinv c hc
    | some d0 =>
      rw [hfind] at hc
      have hd0mem : d0 ∈ s.drafts := List.mem_of_find?_eq_some hfind
      have hd0p := List.find?_some hfind
      have hi : d0.id = i := eq_of_beq hd0p
      simp only at hc ⊢
      cases hci : currentIdIs s d0.id
      · rw [hci] at hc
        simp only [Bool.false_eq_true, if_false] at hc
        have hpc : (c.id == i) = false := hi ▸ currentIdIs_false_beq hci hc
        exact mem_replaceFirst_of_neg (hinv c hc) hpc
      · rw [hci] at hc
        simp only [if_true, Option.some.injEq] at hc
        subst hc
        exact mem_replaceFirst_self ⟨d0, hd0mem, hd0p⟩

theorem reachable_pointerInv {s : RootStateServiceLog} (hr : Reachable s) :
    ∀ c, s.currentDraft = some c → c ∈ s.drafts := by
  induction hr with
  | refl =>
    intro c hc
    simp [initialState] at hc
  | tail hab hbc ih =>
    exact step_preserves_pointerInv hbc ih

/-- C5: in every state reachable from the initial state by the §4
operations (with `setCurrentDraft` restricted to a present draft or
`null`), the current-draft pointer is `none` or value-equal to a draft
present in the collection, and any single further operation preserves
this. -/
theorem current_draft_pointer_invariant (s s' : RootStateServiceLog)
    (hr : Reachable s) (hs : Step s s') :
    pointerInv s = true ∧ pointerInv s' = true :=
  ⟨(pointerInv_iff s).mpr (reachable_pointerInv hr),
   (pointerInv_iff s').mpr (step_preserves_pointerInv hs (reachable_pointerInv hr))⟩

/-- Witness for C5: the initial state and one `createDraft` step. -/
theorem current_draft_pointer_invariant_witness :
    pointerInv initialState = true ∧
    pointerInv (createDraft "draft_1" "t0" "2024-01-01" "2024-01-02" initialState) = true :=
  current_draft_pointer_invariant initialState
    (createDraft "draft_1" "t0" "2024-01-01" "2024-01-02" initialState)
    Relation.ReflTransGen.refl
    (Step.createDraftOp initialState "draft_1" "t0" "2024-01-01" "2024-01-02")

/-- Witness for the amended C8 at the initial state. -/
theorem missing_id_noop_witness :
    initialState.drafts.all (fun d => !(d.id == "zzz")) = true ∧
    initialState.serviceLogs.all (fun l => !(l.id == "zzz")) = true ∧
    currentIdIs initialState "zzz" = false ∧
    initialState.editingLog.all (fun e => !(e.id == "zzz")) = true ∧
    (updateDraft initialState "zzz" (.providerId "p") = some initialState ∧
     markDraftSaved initialState "zzz" none "t" = initialState ∧
     deleteDraft initialState "zzz" = initialState ∧
     deleteServiceLog initialState "zzz" = initialState) :=
  ⟨rfl, rfl, rfl, rfl,
   missing_id_noop initialState "zzz" (.providerId "p") none "t" rfl rfl rfl rfl⟩

end ServiceLogs
